import Mathlib

/-!
Verification of the RPIO core (GPIO control and DMA-paced PWM engine)
against its natural-language specification.  The definitions below are a
shallow embedding of `source/c_gpio/py_gpio.c`, `source/c_gpio/c_gpio.c`
and `source/c_pwm/pwm.c`: machine words are `Nat` (32-bit registers kept
below `2^32` where it matters), C `int` arguments are `Int`, and fallible
or undefined-behaviour paths return `Option`.
-/

namespace RPIO

/-- Board revision selector (revision 1 or revision 2 tables). -/
inductive Rev where
  | rev1
  | rev2
deriving DecidableEq, Repr

/-- `pin_to_gpio_rev1` from py_gpio.c: header position to BCM line, rev 1. -/
def pin_to_gpio_rev1 : List Int :=
  [-1, -1, -1, 0, -1, 1, -1, 4, 14, -1, 15, 17, 18, 21, -1, 22, 23, -1, 24,
   10, -1, 9, 25, 11, 8, -1, 7]

/-- `pin_to_gpio_rev2` from py_gpio.c: header position to BCM line, rev 2. -/
def pin_to_gpio_rev2 : List Int :=
  [-1, -1, -1, 2, -1, 3, -1, 4, 14, -1, 15, 17, 18, 27, -1, 22, 23, -1, 24,
   10, -1, 9, 25, 11, 8, -1, 7]

/-- `gpio_to_pin_rev1` from py_gpio.c: BCM line to header position, rev 1. -/
def gpio_to_pin_rev1 : List Int :=
  [3, 5, -1, -1, 7, -1, -1, 26, 24, 21, 19, 23, -1, -1, 8, 10, -1, 11, 12,
   -1, -1, 13, 15, 16, 18, 22, -1, -1, -1, -1, -1, -1]

/-- `HEADER_P5 = 5 << 8` from py_gpio.c. -/
def HEADER_P5 : Nat := 5 <<< 8

/-- A P5-header entry `pin | HEADER_P5` of the rev-2 table. -/
def p5pin (pin : Nat) : Int := Int.ofNat (pin ||| HEADER_P5)

/-- `gpio_to_pin_rev2` from py_gpio.c: BCM line to header position, rev 2
(P5-header pins carry the `HEADER_P5` tag in the high byte). -/
def gpio_to_pin_rev2 : List Int :=
  [-1, -1, 3, 5, 7, -1, -1, 26, 24, 21, 19, 23, -1, -1, 8, 10, -1, 11, 12,
   -1, -1, -1, 15, 16, 18, 22, -1, 15, p5pin 3, p5pin 4, p5pin 5, p5pin 6]

/-- The `pin_to_gpio` table selected for a revision. -/
def pinToGpio : Rev → List Int
  | .rev1 => pin_to_gpio_rev1
  | .rev2 => pin_to_gpio_rev2

/-- The `gpio_to_pin` table selected for a revision. -/
def gpioToPin : Rev → List Int
  | .rev1 => gpio_to_pin_rev1
  | .rev2 => gpio_to_pin_rev2

/-- `board_to_bcm` from py_gpio.c: raw table read
`*(*pin_to_gpio + board_pin_id)`.  All call sites index within the 27
entries; out-of-range reads (undefined behaviour in C) default to `-1`
and are never relied upon by any theorem. -/
def board_to_bcm (rev : Rev) (board_pin_id : Nat) : Int :=
  (pinToGpio rev).getD board_pin_id (-1)

/-- `bcm_to_board` from py_gpio.c: raw table read
`*(*gpio_to_pin + bcm_gpio_id)`.  Same conventions as `board_to_bcm`. -/
def bcm_to_board (rev : Rev) (bcm_gpio_id : Nat) : Int :=
  (gpioToPin rev).getD bcm_gpio_id (-1)

/-! ## Bit-manipulation helpers (32-bit words as `Nat`) -/

/-- Complement within a 32-bit word: the C expression `~x` applied to a
`uint32_t` view, i.e. `0xFFFFFFFF ^ x` (`0xFFFFFFFF = 2^32 - 1`). -/
def compl32 (x : Nat) : Nat := (2 ^ 32 - 1) ^^^ x

/-- Truncation of a C `int` expression to `uint32_t` (the usual arithmetic
conversion applied when an `int` is compared with or stored into a
`uint32_t`). -/
def toU32 (x : Int) : Nat := (x % (2 ^ 32)).toNat

/-- Truncation to `uint16_t` (storage into `pulse_width_incr_us`). -/
def toU16 (x : Int) : Nat := (x % (2 ^ 16)).toNat

/-- Extract the 3-bit function-select field at bit offset `s` of word `w`:
`(w >> s) & 7`. -/
def fieldGet (w s : Nat) : Nat := (w >>> s) &&& 7

/-! ## c_gpio.c: GPIO register driver

The register file is modelled word-for-word where the code does
read-modify-write (`FSEL`), and at hardware-effect granularity for the
write-to-set registers: a write of `1 << (g%32)` to `SET0/CLR0` drives
line `g`, and a write to `PULLUPDNCLK` latches the low two bits of
`PULLUPDN` into every line whose clock bit is pulsed (the BCM2835
pull-up/down handshake). -/

/-- GPIO hardware state. `fsel` is word-indexed (index `gpio/10`);
`pud` is the `PULLUPDN` register; `pudclk` the word-indexed clock
registers; `pull` the per-line latched pull state; `level` the per-line
driven output level. -/
structure GpioHw where
  fsel : Nat → Nat
  pud : Nat
  pudclk : Nat → Nat
  pull : Nat → Nat
  level : Nat → Bool

/-- Direction / pull / level constants from c_gpio.h.  Note the API-level
inversion documented there: `INPUT = 1`, `OUTPUT = 0`, while the FSEL
field value is 0 for input and 1 for output. -/
def INPUT : Int := 1

/-- `OUTPUT` constant from c_gpio.h (API level). -/
def OUTPUT : Int := 0

/-- `PUD_OFF` from c_gpio.h. -/
def PUD_OFF : Int := 0

/-- `PUD_DOWN` from c_gpio.h. -/
def PUD_DOWN : Int := 1

/-- `PUD_UP` from c_gpio.h. -/
def PUD_UP : Int := 2

/-- `HIGH` from c_gpio.h. -/
def HIGH : Int := 1

/-- `LOW` from c_gpio.h. -/
def LOW : Int := 0

/-- A write of value `v` to `PULLUPDNCLK[word]`.  Hardware effect: every
line in that word whose bit is set in `v` latches the current
`PULLUPDN & 3` value as its pull state. -/
def pudclkWrite (hw : GpioHw) (word v : Nat) : GpioHw :=
  { hw with
    pudclk := Function.update hw.pudclk word v
    pull := fun g =>
      if g / 32 = word ∧ v.testBit (g % 32) then hw.pud &&& 3 else hw.pull g }

/-- `set_pullupdn(gpio, pud)` from c_gpio.c: program `PULLUPDN`, pulse the
per-line clock (latching the pull), then clear both. -/
def set_pullupdn (hw : GpioHw) (gpio : Nat) (pud : Int) : GpioHw :=
  let clk_word := gpio / 32
  let shift := gpio % 32
  let hw1 :=
    if pud = PUD_DOWN then { hw with pud := (hw.pud &&& compl32 3) ||| 1 }
    else if pud = PUD_UP then { hw with pud := (hw.pud &&& compl32 3) ||| 2 }
    else { hw with pud := hw.pud &&& compl32 3 }
  let hw2 := pudclkWrite hw1 clk_word (1 <<< shift)
  let hw3 := { hw2 with pud := hw2.pud &&& compl32 3 }
  pudclkWrite hw3 clk_word 0

/-- `setup_gpio(gpio, direction, pud)` from c_gpio.c: set the pull, then
rewrite the 3-bit FSEL field (`1` for `OUTPUT`, `0` otherwise). -/
def setup_gpio (hw : GpioHw) (gpio : Nat) (direction pud : Int) : GpioHw :=
  let offset := gpio / 10
  let shift := (gpio % 10) * 3
  let hw1 := set_pullupdn hw gpio pud
  if direction = OUTPUT then
    let w := (hw1.fsel offset &&& compl32 (7 <<< shift)) ||| (1 <<< shift)
    { hw1 with fsel := Function.update hw1.fsel offset w }
  else
    let w := hw1.fsel offset &&& compl32 (7 <<< shift)
    { hw1 with fsel := Function.update hw1.fsel offset w }

/-- `gpio_function(gpio)` from c_gpio.c: the raw 3-bit FSEL field. -/
def gpio_function (hw : GpioHw) (gpio : Nat) : Nat :=
  fieldGet (hw.fsel (gpio / 10)) ((gpio % 10) * 3)

/-- `output_gpio(gpio, value)` from c_gpio.c: write `1 << (g%32)` to
`SET0/SET1` (value ≠ 0) or `CLR0/CLR1` (value = 0); hardware effect is
driving line `g` without touching other lines. -/
def output_gpio (hw : GpioHw) (gpio : Nat) (value : Int) : GpioHw :=
  { hw with level := Function.update hw.level gpio (value ≠ 0) }

/-- `input_gpio(gpio)` from c_gpio.c: read bit `g%32` of the level
register, i.e. the line's level. -/
def input_gpio (hw : GpioHw) (gpio : Nat) : Bool :=
  hw.level gpio

/-! ## py_gpio.c: the GPIO facet -/

/-- `BOARD` numbering-mode constant from py_gpio.c. -/
def BOARD : Int := 10

/-- `BCM` numbering-mode constant from py_gpio.c. -/
def BCM : Int := 11

/-- `MODE_UNKNOWN` from py_gpio.c. -/
def MODE_UNKNOWN : Int := -1

/-- Error kinds surfaced by the GPIO facet (the Python exceptions set by
py_gpio.c, by name). -/
inductive PyError where
  | invalidDirection
  | invalidPull
  | modeNotSet
  | invalidChannel
  | wrongDirection
deriving DecidableEq, Repr

/-- State of the GPIO facet: the numbering mode, the 54-entry pin-mode
table `gpio_direction` (−1 unconfigured, `INPUT`, `OUTPUT`), the cached
board revision, and the mapped GPIO hardware. -/
structure PyGpioState where
  gpio_mode : Int
  gpio_direction : List Int
  rev : Rev
  hw : GpioHw

/-- Guarded read of `gpio_direction[i]` at a C `int` index: `none` marks
an out-of-bounds access (undefined behaviour in the C source). -/
def dirGet? (l : List Int) (i : Int) : Option Int :=
  if h : 0 ≤ i ∧ i.toNat < l.length then some (l.get ⟨i.toNat, h.2⟩) else none

/-- `channel_to_gpio(channel)` from py_gpio.c: mode check, range check,
then table translation.  Returns the BCM id, or `-1`/`-2`/`-3` for the
three error kinds (mode-not-set, out-of-range, invalid pin). -/
def channel_to_gpio (s : PyGpioState) (channel : Int) : Int :=
  if s.gpio_mode ≠ BOARD ∧ s.gpio_mode ≠ BCM then -1
  else if (s.gpio_mode = BCM ∧ (channel < 0 ∨ channel > 31)) ∨
          (s.gpio_mode = BOARD ∧ (channel < 1 ∨ channel > 26)) then -2
  else if s.gpio_mode = BOARD then
    let gpio := board_to_bcm s.rev channel.toNat
    if gpio = -1 then -3 else gpio
  else
    if bcm_to_board s.rev channel.toNat = -1 then -3 else channel

/-- `verify_input(channel, *gpio)` from py_gpio.c.  The source compares
the translation result only against `-1`, so the `-2`/`-3` error codes
fall through to the `gpio_direction[*gpio]` read; a negative index there
is an out-of-bounds read, modelled as `none`. -/
def verify_input (s : PyGpioState) (channel : Int) : Option Bool :=
  let gpio := channel_to_gpio s channel
  if gpio = -1 then some false
  else
    match dirGet? s.gpio_direction gpio with
    | none => none
    | some d => if d ≠ INPUT ∧ d ≠ OUTPUT then some false else some true

/-- `py_setup_channel(channel, direction, pull_up_down, initial)` from
py_gpio.c: validate the direction, force `PUD_OFF` for outputs, validate
the pull, translate the channel, optionally pre-drive an output's
initial level, then program the line and record the direction.  (The
`PyErr_WarnEx` warning has no state effect and is not modelled.) -/
def py_setup_channel (s : PyGpioState) (channel direction pud initial : Int) :
    PyGpioState × Option PyError :=
  if direction ≠ INPUT ∧ direction ≠ OUTPUT then (s, some .invalidDirection)
  else
    let pud1 := if direction = OUTPUT then PUD_OFF else pud
    if pud1 ≠ PUD_OFF ∧ pud1 ≠ PUD_DOWN ∧ pud1 ≠ PUD_UP then
      (s, some .invalidPull)
    else
      let gpio := channel_to_gpio s channel
      if gpio < 0 then (s, some .invalidChannel)
      else
        let s1 :=
          if direction = OUTPUT ∧ (initial = LOW ∨ initial = HIGH) then
            { s with hw := output_gpio s.hw gpio.toNat initial }
          else s
        let s2 := { s1 with hw := setup_gpio s1.hw gpio.toNat direction pud1 }
        ({ s2 with gpio_direction := s2.gpio_direction.set gpio.toNat direction },
         none)

/-- One iteration of the `py_cleanup` loop body: if `gpio_direction[i]`
is not −1, reset line `i` to input with pull off and mark it
unconfigured. -/
def cleanupStep (st : PyGpioState) (i : Nat) : PyGpioState :=
  if st.gpio_direction.getD i 0 ≠ -1 then
    { st with
      hw := setup_gpio st.hw i INPUT PUD_OFF
      gpio_direction := st.gpio_direction.set i (-1) }
  else st

/-- `py_cleanup()` from py_gpio.c: for `i` in `0..53`, reset every
configured line. -/
def py_cleanup (s : PyGpioState) : PyGpioState :=
  (List.range 54).foldl cleanupStep s

/-! ## pwm.c: DMA-paced PWM engine

The per-channel arena is modelled as the sample array (a list of 32-bit
words) plus the control-block program (a list of `DmaCb` records); the
`fatal` path is modelled in its soft-fatal form, returning the error kind
and the state at the point of failure.  `none` marks undefined behaviour
(an out-of-bounds array access). -/

/-- `DELAY_VIA_PWM` from pwm.h. -/
def DELAY_VIA_PWM : Int := 0

/-- `DELAY_VIA_PCM` from pwm.h. -/
def DELAY_VIA_PCM : Int := 1

/-- `SUBCYCLE_TIME_US_MIN` from pwm.h. -/
def SUBCYCLE_TIME_US_MIN : Int := 3000

/-- Bus-view address of GPIO CLR0: `0x7e200000 + 0x28` (pwm.c). -/
def GPCLR0_BUS : Nat := 0x7e200000 + 0x28

/-- Bus-view address of GPIO SET0: `0x7e200000 + 0x1c` (pwm.c). -/
def GPSET0_BUS : Nat := 0x7e200000 + 0x1c

/-- `DMA_NO_WIDE_BURSTS` from pwm.c. -/
def DMA_NO_WIDE_BURSTS : Nat := 1 <<< 26

/-- `DMA_WAIT_RESP` from pwm.c. -/
def DMA_WAIT_RESP : Nat := 1 <<< 3

/-- `DMA_D_DREQ` from pwm.c. -/
def DMA_D_DREQ : Nat := 1 <<< 6

/-- `DMA_PER_MAP(x)` from pwm.c. -/
def DMA_PER_MAP (x : Nat) : Nat := x <<< 16

/-- `PWM_BASE` from pwm.c. -/
def PWM_BASE : Nat := 0x2020C000

/-- `PCM_BASE` from pwm.c. -/
def PCM_BASE : Nat := 0x20203000

/-- `GPIO_MODE_IN` from pwm.c. -/
def GPIO_MODE_IN : Nat := 0

/-- `GPIO_MODE_OUT` from pwm.c. -/
def GPIO_MODE_OUT : Nat := 1

/-- A DMA control block (`dma_cb_t`, 8 words; the two reserved pad words
are omitted). -/
structure DmaCb where
  info : Nat
  src : Nat
  dst : Nat
  length : Nat
  stride : Nat
  next : Nat
deriving DecidableEq, Repr

/-- Error kinds raised through `fatal(...)` in pwm.c, by trigger. -/
inductive PwmError where
  | notSetup
  | channelRange
  | alreadyInit
  | subcycleRange
  | channelNotInit
  | widthRange
  | gpioNotSetup
  | alreadySetup
deriving DecidableEq, Repr

/-- Per-channel control structure (`struct channel` from pwm.c).
`virtbase` is the is-allocated flag (non-NULL arena); `sample` and `cbs`
are the arena contents. -/
structure PwmChannel where
  virtbase : Bool
  sample : List Nat
  cbs : List DmaCb
  subcycle_time_us : Nat
  num_samples : Nat
  num_cbs : Nat
  num_pages : Nat
  width_max : Nat
deriving DecidableEq, Repr

/-- Pacer (PWM/PCM/clock) registers written by `init_hardware`. -/
structure PacerHw where
  pwm_ctl : Nat
  pwm_rng1 : Nat
  pwm_dmac : Nat
  pwmclk_cntl : Nat
  pwmclk_div : Nat
  pcm_cs : Nat
  pcm_txc : Nat
  pcm_mode : Nat
  pcm_dreq : Nat
  pcmclk_cntl : Nat
  pcmclk_div : Nat
deriving DecidableEq, Repr

/-- Process-wide PWM engine state: the 15-entry channel table, the global
tick `pulse_width_incr_us` (uint16), the setup latch, the `gpio_setup`
bitmap, the pacer kind `delay_hw`, the mapped GPIO registers and the
pacer hardware. -/
structure PwmState where
  channels : Fin 15 → PwmChannel
  pulse_width_incr_us : Nat
  is_setup_flag : Bool
  gpio_setup : Nat
  delay_hw : Int
  hw : GpioHw
  pacer : PacerHw

/-- Guarded update of `l[i]` at a C `int` index by `f`; `none` marks an
out-of-bounds access. -/
def updIdx? {α : Type} (l : List α) (i : Int) (f : α → α) : Option (List α) :=
  if h : 0 ≤ i ∧ i.toNat < l.length then
    some (l.set i.toNat (f (l.get ⟨i.toNat, h.2⟩)))
  else none

/-- Apply `f` to `l[i], l[i+1], ..., l[i+k-1]` in order (a C `for` loop
of `k` iterations); `none` on any out-of-bounds access. -/
def updRange? {α : Type} (f : α → α) : List α → Int → Nat → Option (List α)
  | l, _, 0 => some l
  | l, i, k + 1 => (updIdx? l i f).bind fun l1 => updRange? f l1 (i + 1) k

/-- The channel-table access `channels[channel]`: in bounds only for
`0 ≤ channel ≤ 14` (the table has `DMA_CHANNELS = 15` entries). -/
def getCh? (s : PwmState) (c : Int) : Option PwmChannel :=
  if h : 0 ≤ c ∧ c < 15 then some (s.channels ⟨c.toNat, by omega⟩) else none

/-- `gpio_set_mode(pin, mode)` from pwm.c: read-modify-write of the FSEL
word `pin/10`. -/
def pwm_gpio_set_mode (hw : GpioHw) (pin mode : Nat) : GpioHw :=
  let shift := (pin % 10) * 3
  let w := (hw.fsel (pin / 10) &&& compl32 (7 <<< shift)) ||| (mode <<< shift)
  { hw with fsel := Function.update hw.fsel (pin / 10) w }

/-- `gpio_set(pin, level)` from pwm.c: write `1 << pin` to `SET0`
(level ≠ 0) or `CLR0` (level = 0); hardware effect is driving line
`pin`. -/
def pwm_gpio_set (hw : GpioHw) (pin : Nat) (level : Int) : GpioHw :=
  { hw with level := Function.update hw.level pin (level ≠ 0) }

/-- `init_gpio(gpio)` from pwm.c: drive low, set function to output,
record the line in the `gpio_setup` bitmap. -/
def init_gpio (s : PwmState) (gpio : Nat) : PwmState :=
  let hw1 := pwm_gpio_set s.hw gpio 0
  let hw2 := pwm_gpio_set_mode hw1 gpio GPIO_MODE_OUT
  { s with hw := hw2, gpio_setup := s.gpio_setup ||| (1 <<< gpio) }

/-- `mem_virt_to_phys(channel, virt)` from pwm.c, as a function of the
arena byte offset: `page_map[offset >> 12].physaddr + offset % 4096`.
`pm` is the channel's page map (page index to physical frame address). -/
def virt_to_phys (pm : Nat → Nat) (offset : Nat) : Nat :=
  pm (offset >>> 12) + offset % 4096

/-- Arena byte offset of `cb[i]` for a channel with `n` samples: the CB
region starts right after the `n` 4-byte samples (`get_cb`), and each CB
is 32 bytes. -/
def cbOffset (n i : Nat) : Nat := 4 * n + 32 * i

/-- The `j`-th control block written by the `init_ctrl_data` loop (before
the final back-link fix-up): even CBs copy `sample[j/2]` to CLR0, odd CBs
write to the pacer FIFO; every `next` points at the following CB. -/
def mkCb (pm : Nat → Nat) (n : Nat) (delay_hw : Int) (j : Nat) : DmaCb :=
  if j % 2 = 0 then
    { info := DMA_NO_WIDE_BURSTS ||| DMA_WAIT_RESP
      src := virt_to_phys pm (4 * (j / 2))
      dst := GPCLR0_BUS
      length := 4
      stride := 0
      next := virt_to_phys pm (cbOffset n (j + 1)) }
  else
    { info :=
        if delay_hw = DELAY_VIA_PWM then
          DMA_NO_WIDE_BURSTS ||| DMA_WAIT_RESP ||| DMA_D_DREQ ||| DMA_PER_MAP 5
        else
          DMA_NO_WIDE_BURSTS ||| DMA_WAIT_RESP ||| DMA_D_DREQ ||| DMA_PER_MAP 2
      src := virt_to_phys pm 0
      dst :=
        if delay_hw = DELAY_VIA_PWM then (PWM_BASE ||| 0x7e000000) + 0x18
        else (PCM_BASE ||| 0x7e000000) + 0x04
      length := 4
      stride := 0
      next := virt_to_phys pm (cbOffset n (j + 1)) }

/-- The control-block program built by `init_ctrl_data` (pwm.c lines
562-586): `2n` CBs written by the loop, then the last CB's `next`
relinked to the physical address of CB 0. -/
def init_cbs (pm : Nat → Nat) (n : Nat) (delay_hw : Int) : List DmaCb :=
  let l := (List.range (2 * n)).map (mkCb pm n delay_hw)
  l.set (2 * n - 1)
    { mkCb pm n delay_hw (2 * n - 1) with next := virt_to_phys pm (cbOffset n 0) }

/-- `add_channel_pulse(channel, gpio, width_start, width)` from pwm.c:
after the init/range checks, set bit `gpio` of `sample[width_start]` and
point CB `2*width_start` at SET0; clear the bit in `width-2` following
samples while advancing the CB cursor by 2 per iteration (`for (i = 1;
i < width - 1; i++)`); finally set the bit in
`sample[width_start+width]` and point the CB now under the cursor —
index `2*width_start + 2*max(width-2,0)` — at CLR0. -/
def add_channel_pulse (s : PwmState) (channel : Int) (gpio : Nat)
    (width_start width : Int) : Option (PwmState × Option PwmError) :=
  if h : 0 ≤ channel ∧ channel < 15 then
    let ci : Fin 15 := ⟨channel.toNat, by omega⟩
    let ch := s.channels ci
    if ch.virtbase = false then some (s, some .channelNotInit)
    else if toU32 (width_start + width) > ch.width_max ∨ width_start < 0 then
      some (s, some .widthRange)
    else
      let s1 := if s.gpio_setup &&& (1 <<< gpio) = 0 then init_gpio s gpio else s
      do
        let smp1 ← updIdx? ch.sample width_start (fun w => w ||| (1 <<< gpio))
        let cbs1 ← updIdx? ch.cbs (2 * width_start)
          (fun cb => { cb with dst := GPSET0_BUS })
        let smp2 ← updRange? (fun w => w &&& compl32 (1 <<< gpio)) smp1
          (width_start + 1) (width - 2).toNat
        let smp3 ← updIdx? smp2 (width_start + width) (fun w => w ||| (1 <<< gpio))
        let cbs2 ← updIdx? cbs1 (2 * width_start + 2 * ((width - 2).toNat : Int))
          (fun cb => { cb with dst := GPCLR0_BUS })
        some ({ s1 with channels :=
                  Function.update s1.channels ci { ch with sample := smp3, cbs := cbs2 } },
              none)
  else none

/-- The `clear_channel` CB loop: set `dst` of CBs `j, j+2, ...` (k
iterations) to CLR0. -/
def clearCbEven : List DmaCb → Nat → Nat → Option (List DmaCb)
  | cbs, _, 0 => some cbs
  | cbs, j, k + 1 =>
    (updIdx? cbs (Int.ofNat j) (fun cb => { cb with dst := GPCLR0_BUS })).bind
      fun cbs1 => clearCbEven cbs1 (j + 2) k

/-- `clear_channel(channel)` from pwm.c: point every even CB back at
CLR0, (wait one subcycle,) then zero every sample. -/
def clear_channel (s : PwmState) (channel : Int) :
    Option (PwmState × Option PwmError) :=
  if h : 0 ≤ channel ∧ channel < 15 then
    let ci : Fin 15 := ⟨channel.toNat, by omega⟩
    let ch := s.channels ci
    if ch.virtbase = false then some (s, some .channelNotInit)
    else do
      let cbs1 ← clearCbEven ch.cbs 0 ch.num_samples
      let smp1 ← updRange? (fun _ => 0) ch.sample 0 ch.num_samples
      some ({ s with channels :=
                Function.update s.channels ci { ch with sample := smp1, cbs := cbs1 } },
            none)
  else none

/-- `clear_channel_gpio(channel, gpio)` from pwm.c: after the init and
gpio-claimed checks, mask bit `gpio` out of every sample, then drive the
line low.  CB destinations are not touched. -/
def clear_channel_gpio (s : PwmState) (channel : Int) (gpio : Nat) :
    Option (PwmState × Option PwmError) :=
  if h : 0 ≤ channel ∧ channel < 15 then
    let ci : Fin 15 := ⟨channel.toNat, by omega⟩
    let ch := s.channels ci
    if ch.virtbase = false then some (s, some .channelNotInit)
    else if s.gpio_setup &&& (1 <<< gpio) = 0 then some (s, some .gpioNotSetup)
    else do
      let smp1 ← updRange? (fun w => w &&& compl32 (1 <<< gpio)) ch.sample 0
        ch.num_samples
      let s1 := { s with channels :=
                    Function.update s.channels ci { ch with sample := smp1 } }
      some ({ s1 with hw := pwm_gpio_set s1.hw gpio 0 }, none)
  else none

/-- `init_channel(channel, subcycle_time_us)` from pwm.c: setup check,
maximum-channel check (no lower-bound check: a negative channel reaches
the table access, which is out of bounds), re-init check, subcycle
minimum check; then the channel fields are computed and the arena,
pagemap and control blocks are set up.  `pm` is the page map resolved by
`make_pagemap`; the anonymous `MAP_LOCKED` arena is zero-filled.  The DMA
register bring-up writes of `init_ctrl_data` have no modelled state. -/
def init_channel (s : PwmState) (channel subcycle_time_us : Int)
    (pm : Nat → Nat) : Option (PwmState × Option PwmError) :=
  if s.is_setup_flag = false then some (s, some .notSetup)
  else if h14 : channel > 14 then some (s, some .channelRange)
  else if h : 0 ≤ channel then
    let ci : Fin 15 := ⟨channel.toNat, by omega⟩
    let ch := s.channels ci
    if ch.virtbase then some (s, some .alreadyInit)
    else if subcycle_time_us < SUBCYCLE_TIME_US_MIN then
      some (s, some .subcycleRange)
    else
      let sub := toU32 subcycle_time_us
      let n := sub / s.pulse_width_incr_us
      let ch1 : PwmChannel :=
        { virtbase := true
          sample := List.replicate n 0
          cbs := init_cbs pm n s.delay_hw
          subcycle_time_us := sub
          num_samples := n
          num_cbs := toU32 (2 * (n : Int))
          num_pages := ((toU32 (2 * (n : Int)) * 32 + n * 4 + 4096 - 1) % 2 ^ 32) >>> 12
          width_max := toU32 ((n : Int) - 1) }
      some ({ s with channels := Function.update s.channels ci ch1 }, none)
  else none

/-- `is_channel_initialized(channel)` from pwm.c: unchecked table read of
`channels[channel].virtbase`. -/
def is_channel_initialized (s : PwmState) (channel : Int) : Option Int :=
  (getCh? s channel).map fun ch => if ch.virtbase then 1 else 0

/-- `get_channel_subcycle_time_us(channel)` from pwm.c: unchecked table
read. -/
def get_channel_subcycle_time_us (s : PwmState) (channel : Int) : Option Nat :=
  (getCh? s channel).map fun ch => ch.subcycle_time_us

/-- `init_hardware()` from pwm.c: the sequence of pacer register writes
(PWM path or PCM path), as functions of the global tick. -/
def init_hardware (p : PacerHw) (delay_hw : Int) (pulse_width_incr_us : Nat) :
    PacerHw :=
  if delay_hw = DELAY_VIA_PWM then
    let p := { p with pwm_ctl := 0 }
    let p := { p with pwmclk_cntl := 0x5A000006 }
    let p := { p with pwmclk_div := 0x5A000000 ||| (50 <<< 12) }
    let p := { p with pwmclk_cntl := 0x5A000016 }
    let p := { p with pwm_rng1 := pulse_width_incr_us * 10 }
    let p := { p with pwm_dmac := (1 <<< 31) ||| ((15 <<< 8) ||| 15) }
    let p := { p with pwm_ctl := 1 <<< 6 }
    { p with pwm_ctl := (1 <<< 5) ||| 1 }
  else
    let p := { p with pcm_cs := 1 }
    let p := { p with pcmclk_cntl := 0x5A000006 }
    let p := { p with pcmclk_div := 0x5A000000 ||| (50 <<< 12) }
    let p := { p with pcmclk_cntl := 0x5A000016 }
    let p := { p with pcm_txc := 1 <<< 30 }
    let p := { p with pcm_mode := (pulse_width_incr_us * 10 - 1) <<< 10 }
    let p := { p with pcm_cs := p.pcm_cs ||| (1 <<< 4) ||| (1 <<< 3) }
    let p := { p with pcm_dreq := (64 <<< 24) ||| (64 <<< 8) }
    let p := { p with pcm_cs := p.pcm_cs ||| (1 <<< 9) }
    { p with pcm_cs := p.pcm_cs ||| (1 <<< 2) }

/-- `setup(pw_incr_us, hw)` from pwm.c.  Note the source assigns
`delay_hw` and `pulse_width_incr_us` from the arguments BEFORE testing
the `_is_setup` latch; only then does a repeated call fail already-setup
(without re-running `init_hardware`). -/
def setup (s : PwmState) (pw_incr_us hw : Int) : PwmState × Option PwmError :=
  let s1 := { s with delay_hw := hw, pulse_width_incr_us := toU16 pw_incr_us }
  if s1.is_setup_flag then (s1, some .alreadySetup)
  else
    let s2 := { s1 with
      pacer := init_hardware s1.pacer s1.delay_hw s1.pulse_width_incr_us }
    ({ s2 with is_setup_flag := true }, none)

/-! ## Concrete fixtures for counterexamples and witnesses -/

/-- All-zero GPIO hardware fixture. -/
def hwZero : GpioHw :=
  { fsel := fun _ => 0, pud := 0, pudclk := fun _ => 0, pull := fun _ => 0,
    level := fun _ => false }

/-- All-zero pacer register fixture. -/
def pacerZero : PacerHw := ⟨0, 0, 0, 0, 0, 0, 0, 0, 0, 0, 0⟩

/-- An untouched channel table entry (NULL `virtbase`). -/
def chanNull : PwmChannel :=
  { virtbase := false, sample := [], cbs := [], subcycle_time_us := 0,
    num_samples := 0, num_cbs := 0, num_pages := 0, width_max := 0 }

/-- A concrete page map: page `p` resolved to the uncached alias of frame
`p`. -/
def pmFix : Nat → Nat := fun p => 0x40000000 + 4096 * p

/-- A concrete initialized channel with 8 samples (as built by
`init_channel` with a fresh arena). -/
def chanTest : PwmChannel :=
  { virtbase := true, sample := List.replicate 8 0, cbs := init_cbs pmFix 8 0,
    subcycle_time_us := 80, num_samples := 8, num_cbs := 16, num_pages := 1,
    width_max := 7 }

/-- A PWM engine state with channel 0 initialized (`chanTest`) and GPIO 17
claimed. -/
def pwmTest : PwmState :=
  { channels := fun i => if i = 0 then chanTest else chanNull
    pulse_width_incr_us := 10, is_setup_flag := true, gpio_setup := 1 <<< 17,
    delay_hw := 0, hw := hwZero, pacer := pacerZero }

/-- A fresh PWM engine state (before `setup`; `pulse_width_incr_us` holds
the `(uint16_t)-1` initializer). -/
def pwmFresh : PwmState :=
  { channels := fun _ => chanNull, pulse_width_incr_us := 65535,
    is_setup_flag := false, gpio_setup := 0, delay_hw := 0, hw := hwZero,
    pacer := pacerZero }

/-- GPIO facet state: BCM numbering mode, all 54 lines unconfigured,
revision 2. -/
def gpioFacetBcm : PyGpioState :=
  { gpio_mode := BCM, gpio_direction := List.replicate 54 (-1), rev := .rev2,
    hw := hwZero }

/-- GPIO facet state with BCM 17 recorded as input. -/
def gpioConfigured : PyGpioState :=
  { gpioFacetBcm with
    gpio_direction := gpioFacetBcm.gpio_direction.set 17 1 }

/-- The channel-table entry for channel `c` (as a total projection for
stating theorems; `chanNull` outside the table). -/
def chanD (s : PwmState) (c : Int) : PwmChannel := (getCh? s c).getD chanNull

/-- All-zero control block (projection default). -/
def cbDefault : DmaCb := ⟨0, 0, 0, 0, 0, 0⟩

/-- Destination field of CB `i` of channel `c`. -/
def cbDstAt (s : PwmState) (c : Int) (i : Nat) : Nat :=
  ((chanD s c).cbs.getD i cbDefault).dst

/-- Sample word `i` of channel `c`. -/
def sampleAt (s : PwmState) (c : Int) (i : Nat) : Nat :=
  (chanD s c).sample.getD i 0

/-! ## Generic list and bit lemmas -/

theorem getD_set_self {α : Type} (l : List α) (i : Nat) (v d : α)
    (h : i < l.length) : (l.set i v).getD i d = v := by
  simp [List.getD, List.getElem?_set_self, h]

theorem getD_set_ne {α : Type} (l : List α) (i j : Nat) (v d : α)
    (h : i ≠ j) : (l.set i v).getD j d = l.getD j d := by
  simp [List.getD, List.getElem?_set_ne h]

theorem getD_eq_get {α : Type} (l : List α) (i : Nat) (d : α)
    (h : i < l.length) : l.getD i d = l.get ⟨i, h⟩ := by
  simp [List.getD, List.getElem?_eq_getElem h]

theorem compl32_testBit (x b : Nat) :
    (compl32 x).testBit b = ((decide (b < 32)).xor (x.testBit b)) := by
  rw [compl32, Nat.testBit_xor, Nat.testBit_two_pow_sub_one]

theorem one_shl_testBit (g b : Nat) :
    ((1 <<< g : Nat)).testBit b = decide (g = b) := by
  rw [Nat.shiftLeft_eq, one_mul, Nat.testBit_two_pow]

theorem or_one_shl_testBit (w g b : Nat) :
    (w ||| (1 <<< g)).testBit b = (w.testBit b || decide (b = g)) := by
  rw [Nat.testBit_lor, one_shl_testBit]
  by_cases h : g = b
  · subst h; simp
  · have h2 : ¬ b = g := fun hh => h hh.symm
    simp [h, h2]

theorem and_compl_one_shl_testBit (w g b : Nat) (hw : w < 2 ^ 32) :
    (w &&& compl32 (1 <<< g)).testBit b = (w.testBit b && decide (b ≠ g)) := by
  rw [Nat.testBit_land, compl32_testBit, one_shl_testBit]
  by_cases hb : b < 32
  · by_cases hbg : b = g
    · subst hbg; simp [hb]
    · have h2 : ¬ g = b := fun hh => hbg hh.symm
      simp [hb, hbg, h2]
  · have hwb : w.testBit b = false :=
      Nat.testBit_lt_two_pow
        (lt_of_lt_of_le hw (Nat.pow_le_pow_right (by omega) (by omega)))
    simp [hwb]

theorem or_lt_32 (w g : Nat) (hw : w < 2 ^ 32) (hg : g < 32) :
    w ||| (1 <<< g) < 2 ^ 32 := by
  have h1 : (1 <<< g : Nat) < 2 ^ 32 := by
    rw [Nat.shiftLeft_eq, one_mul]
    exact Nat.pow_lt_pow_right (by omega) hg
  exact Nat.or_lt_two_pow hw h1

theorem and_lt_32 (w m : Nat) (hw : w < 2 ^ 32) : w &&& m < 2 ^ 32 :=
  lt_of_le_of_lt Nat.and_le_left hw

theorem shl7_testBit (s b : Nat) :
    ((7 <<< s : Nat)).testBit b = (decide (s ≤ b) && decide (b - s < 3)) := by
  rw [Nat.testBit_shiftLeft, show (7 : Nat) = 2 ^ 3 - 1 by norm_num,
    Nat.testBit_two_pow_sub_one]

theorem fieldGet_testBit (w s j : Nat) :
    (fieldGet w s).testBit j = (w.testBit (s + j) && decide (j < 3)) := by
  rw [fieldGet, Nat.testBit_land, Nat.testBit_shiftRight,
    show (7 : Nat) = 2 ^ 3 - 1 by norm_num, Nat.testBit_two_pow_sub_one]

theorem fieldGet_clear_self (w s : Nat) (hs : s + 3 ≤ 32) :
    fieldGet (w &&& compl32 (7 <<< s)) s = 0 := by
  apply Nat.eq_of_testBit_eq
  intro j
  rw [fieldGet_testBit, Nat.testBit_land, compl32_testBit, shl7_testBit,
    Nat.zero_testBit]
  by_cases hj : j < 3
  · have h1 : s ≤ s + j := by omega
    have h2 : s + j - s < 3 := by omega
    have h3 : s + j < 32 := by omega
    simp [h1, h2, h3]
  · simp [hj]

theorem fieldGet_clear_or_self (w s : Nat) (hs : s + 3 ≤ 32) :
    fieldGet ((w &&& compl32 (7 <<< s)) ||| (1 <<< s)) s = 1 := by
  apply Nat.eq_of_testBit_eq
  intro j
  rw [fieldGet_testBit, Nat.testBit_lor, Nat.testBit_land, compl32_testBit,
    shl7_testBit, one_shl_testBit,
    show (1 : Nat) = 2 ^ 0 by norm_num, Nat.testBit_two_pow]
  by_cases hj0 : j = 0
  · subst hj0
    simp
  · have h0 : ¬ 0 = j := fun hh => hj0 hh.symm
    by_cases hj : j < 3
    · have h3 : s + j < 32 := by omega
      have h4 : ¬ s = s + j := by omega
      have h5 : s ≤ s + j := by omega
      have h6 : s + j - s < 3 := by omega
      simp [h3, h4, h5, h6, hj, h0]
    · simp [hj, h0]

theorem fieldGet_clear_other (w s t : Nat) (ht : t + 3 ≤ 32)
    (hdisj : t + 3 ≤ s ∨ s + 3 ≤ t) :
    fieldGet (w &&& compl32 (7 <<< s)) t = fieldGet w t := by
  apply Nat.eq_of_testBit_eq
  intro j
  rw [fieldGet_testBit, fieldGet_testBit, Nat.testBit_land, compl32_testBit,
    shl7_testBit]
  by_cases hj : j < 3
  · have h3 : t + j < 32 := by omega
    by_cases h5 : s ≤ t + j
    · have h6 : ¬ t + j - s < 3 := by omega
      simp [h3, h5, h6]
    · simp [h3, h5]
  · simp [hj]

theorem fieldGet_or_one_other (w s t : Nat) (hdisj : t + 3 ≤ s ∨ s + 3 ≤ t) :
    fieldGet (w ||| (1 <<< s)) t = fieldGet w t := by
  apply Nat.eq_of_testBit_eq
  intro j
  rw [fieldGet_testBit, fieldGet_testBit, Nat.testBit_lor, one_shl_testBit]
  by_cases hj : j < 3
  · have h4 : ¬ s = t + j := by omega
    simp [h4, hj]
  · simp [hj]

theorem and3_of_or (x c : Nat) (hc : c < 4) :
    (((x &&& compl32 3) ||| c) &&& 3) = c := by
  apply Nat.eq_of_testBit_eq
  intro j
  rw [Nat.testBit_land, Nat.testBit_lor, Nat.testBit_land, compl32_testBit,
    show (3 : Nat) = 2 ^ 2 - 1 by norm_num, Nat.testBit_two_pow_sub_one]
  by_cases hj : j < 2
  · have h1 : j < 32 := by omega
    simp [hj, h1]
  · have hcj : c.testBit j = false :=
      Nat.testBit_lt_two_pow (lt_of_lt_of_le hc (by
        rw [show (4 : Nat) = 2 ^ 2 by norm_num]
        exact Nat.pow_le_pow_right (by omega) (by omega)))
    simp [hj, hcj]

theorem and3_of_clear (x : Nat) : ((x &&& compl32 3) &&& 3) = 0 := by
  have h := and3_of_or x 0 (by omega)
  simpa using h

theorem updIdx?_eq_some {α : Type} (l : List α) (i : Int) (f : α → α)
    (h0 : 0 ≤ i) (hl : i.toNat < l.length) :
    updIdx? l i f = some (l.set i.toNat (f (l.get ⟨i.toNat, hl⟩))) := by
  rw [updIdx?, dif_pos (⟨h0, hl⟩ : 0 ≤ i ∧ i.toNat < l.length)]

theorem updIdx?_spec {α : Type} (l : List α) (i : Int) (f : α → α) (d : α)
    (h0 : 0 ≤ i) (hl : i.toNat < l.length) :
    ∃ l', updIdx? l i f = some l' ∧ l'.length = l.length ∧
      ∀ j : Nat, l'.getD j d =
        if j = i.toNat then f (l.getD j d) else l.getD j d := by
  refine ⟨_, updIdx?_eq_some l i f h0 hl, by simp, ?_⟩
  intro j
  by_cases hj : j = i.toNat
  · subst hj
    rw [if_pos rfl, getD_set_self _ _ _ _ hl, getD_eq_get l i.toNat d hl]
  · rw [if_neg hj, getD_set_ne]
    exact fun hh => hj hh.symm

theorem updRange?_spec {α : Type} (f : α → α) (d : α) :
    ∀ (k : Nat) (l : List α) (i : Int), 0 ≤ i → i.toNat + k ≤ l.length →
      ∃ l', updRange? f l i k = some l' ∧ l'.length = l.length ∧
        ∀ j : Nat, l'.getD j d =
          if i.toNat ≤ j ∧ j < i.toNat + k then f (l.getD j d) else l.getD j d
  | 0, l, i, _, _ => ⟨l, rfl, rfl, by intro j; rw [if_neg (by omega)]⟩
  | k + 1, l, i, h0, hk => by
    have hl : i.toNat < l.length := by omega
    obtain ⟨l1, h1, hlen1, hspec1⟩ := updIdx?_spec l i f d h0 hl
    have h0' : (0 : Int) ≤ i + 1 := by omega
    have htn : (i + 1).toNat = i.toNat + 1 := by omega
    have hk' : (i + 1).toNat + k ≤ l1.length := by omega
    obtain ⟨l2, h2, hlen2, hspec2⟩ := updRange?_spec f d k l1 (i + 1) h0' hk'
    refine ⟨l2, ?_, by omega, ?_⟩
    · rw [show updRange? f l i (k + 1) =
          (updIdx? l i f).bind (fun l3 => updRange? f l3 (i + 1) k) from rfl,
        h1]
      simpa using h2
    · intro j
      by_cases hj1 : j = i.toNat
      · rw [hspec2 j, if_neg (by omega), hspec1 j, if_pos hj1, if_pos (by omega)]
      · by_cases hj2 : (i + 1).toNat ≤ j ∧ j < (i + 1).toNat + k
        · rw [hspec2 j, if_pos hj2, hspec1 j, if_neg hj1, if_pos (by omega)]
        · rw [hspec2 j, if_neg hj2, hspec1 j, if_neg hj1, if_neg (by omega)]

/-! ## Claim theorems -/

/-- C1: the board/BCM numbering round trip fails on the revision-2
tables: header position 13 is valid (`pin_to_gpio_rev2[13] = 27 ≠ -1`),
but `bcm_to_board(board_to_bcm(13)) = gpio_to_pin_rev2[27] = 15 ≠ 13`
(the table entry collides with `gpio_to_pin_rev2[22] = 15`; the real
rev-2 header has GPIO 27 on P1 pin 13, so the entry is a typo for 13). -/
theorem C1_rev2_roundtrip_fails_at_13 :
    pin_to_gpio_rev2.getD 13 0 ≠ -1 ∧
    board_to_bcm Rev.rev2 13 = 27 ∧
    bcm_to_board Rev.rev2 27 = 15 ∧ (15 : Int) ≠ 13 := by decide

/-- Supporting evidence for C1: on the revision-1 tables the round trip
does hold at every valid P1 position. -/
theorem rev1_roundtrip_holds :
    ∀ p : Nat, p < 27 → board_to_bcm Rev.rev1 p ≠ -1 →
      bcm_to_board Rev.rev1 (board_to_bcm Rev.rev1 p).toNat = p := by decide

/-- Supporting evidence for C1: on the revision-2 tables position 13 is
the only valid P1 position where the round trip fails. -/
theorem rev2_roundtrip_holds_except_13 :
    ∀ p : Nat, p < 27 → p ≠ 13 → board_to_bcm Rev.rev2 p ≠ -1 →
      bcm_to_board Rev.rev2 (board_to_bcm Rev.rev2 p).toNat = p := by decide

/-- C3: `setup` is latched, but the source assigns the tick and the pacer
kind from the arguments BEFORE testing `_is_setup`: after `setup(10,
PWM)` then `setup(20, PCM)`, the second call fails already-setup and
leaves the pacer hardware untouched, yet `pulse_width_incr_us` is now 20
and `delay_hw` is PCM, contradicting the claim (and the source's own
comment that the granularity "cannot be changed during runtime"). -/
theorem C3_setup_second_call_overwrites_tick :
    (setup pwmFresh 10 0).2 = none ∧
    (setup pwmFresh 10 0).1.pulse_width_incr_us = 10 ∧
    (setup pwmFresh 10 0).1.delay_hw = 0 ∧
    (setup (setup pwmFresh 10 0).1 20 1).2 = some PwmError.alreadySetup ∧
    (setup (setup pwmFresh 10 0).1 20 1).1.pacer = (setup pwmFresh 10 0).1.pacer ∧
    (setup (setup pwmFresh 10 0).1 20 1).1.pulse_width_incr_us = 20 ∧
    (setup (setup pwmFresh 10 0).1 20 1).1.delay_hw = 1 := by decide

/-- C4: `verify_input` compares the translation result only against `-1`,
so the range-failure code `-2` (here: BCM mode, channel 40) falls through
to the `gpio_direction[-2]` read — an out-of-bounds access (`none`)
instead of a rejection. -/
theorem C4_verify_input_oob_read :
    channel_to_gpio gpioFacetBcm 40 = -2 ∧
    verify_input gpioFacetBcm 40 = none := by decide

/-- C2 (counterexample): on the freshly initialized `pwmTest` channel,
the completed call `add_channel_pulse(0, 17, 0, 2)` leaves CB 0 (index
`2s`) pointing at CLR0, not SET0 (the final `cbp->dst = phys_gpclr0`
lands on the cursor that advanced only `max(w-2,0)` CB pairs); and after
`add(0,17,0,2)` the completed call `add(0, 17, 0, 3)` leaves bit 17 of
`sample[2]` (an intermediate tick, `s+1 ≤ 2 ≤ s+w-1`) still set, because
the body loop `for (i = 1; i < width - 1; i++)` clears only
`sample[s+1..s+w-2]`. -/
theorem C2_add_pulse_counterexample :
    ((add_channel_pulse pwmTest 0 17 0 2).map fun r =>
        (r.2, cbDstAt r.1 0 0, sampleAt r.1 0 0, sampleAt r.1 0 2)) =
      some (none, GPCLR0_BUS, 1 <<< 17, 1 <<< 17) ∧
    GPCLR0_BUS ≠ GPSET0_BUS ∧
    (((add_channel_pulse pwmTest 0 17 0 2).bind fun r =>
        add_channel_pulse r.1 0 17 0 3).map fun r =>
          (r.2, (sampleAt r.1 0 2).testBit 17, cbDstAt r.1 0 0)) =
      some (none, true, GPSET0_BUS) := by decide

/-- Length of the program built by `init_ctrl_data`: `2n` CBs. -/
theorem init_cbs_length (pm : Nat → Nat) (n : Nat) (d : Int) :
    (init_cbs pm n d).length = 2 * n := by
  simp [init_cbs]

/-- The `next` link written by the loop body always points at the
following CB slot. -/
theorem mkCb_next (pm : Nat → Nat) (n : Nat) (d : Int) (j : Nat) :
    (mkCb pm n d j).next = virt_to_phys pm (cbOffset n (j + 1)) := by
  by_cases h : j % 2 = 0 <;> simp [mkCb, h]

/-- Element description of the built CB program. -/
theorem init_cbs_getD (pm : Nat → Nat) (n : Nat) (d : Int) (i : Nat)
    (hi : i < 2 * n) :
    (init_cbs pm n d).getD i cbDefault =
      (if i = 2 * n - 1 then
        { mkCb pm n d (2 * n - 1) with next := virt_to_phys pm (cbOffset n 0) }
      else mkCb pm n d i) := by
  rw [init_cbs]
  by_cases h : i = 2 * n - 1
  · subst h
    rw [if_pos rfl, getD_set_self]
    simpa using hi
  · rw [if_neg h, getD_set_ne _ _ _ _ _ (fun hh => h hh.symm)]
    simp [List.getD, List.getElem?_map, List.getElem?_range hi]

/-- Following `i ↦ (i+1) mod m` for `k ≤ m` steps from 0 reaches
`k mod m`. -/
theorem iterate_succ_mod (m : Nat) (hm : 2 ≤ m) :
    ∀ k, k ≤ m → (fun i => (i + 1) % m)^[k] 0 = k % m := by
  intro k
  induction k with
  | zero => intro _; simp
  | succ k ih =>
    intro hk
    rw [Function.iterate_succ_apply', ih (by omega)]
    have h1 : (1 : Nat) % m = 1 := Nat.mod_eq_of_lt (by omega)
    rw [Nat.add_mod k 1 m, h1]

/-- C6: the CB program built by `init_ctrl_data` is a single cycle: every
CB but the last links to the next CB slot in the arena, the last links
back to CB 0, and following `next` (as slot indices) `2n` times from CB 0
returns to CB 0. -/
theorem C6_cb_chain_closure (pm : Nat → Nat) (n : Nat) (d : Int)
    (hn : 1 ≤ n) :
    (init_cbs pm n d).length = 2 * n ∧
    (∀ i, i < 2 * n - 1 →
      ((init_cbs pm n d).getD i cbDefault).next =
        virt_to_phys pm (cbOffset n (i + 1))) ∧
    ((init_cbs pm n d).getD (2 * n - 1) cbDefault).next =
      virt_to_phys pm (cbOffset n 0) ∧
    (∀ i, i < 2 * n →
      ((init_cbs pm n d).getD i cbDefault).next =
        virt_to_phys pm (cbOffset n ((i + 1) % (2 * n)))) ∧
    (fun i => (i + 1) % (2 * n))^[2 * n] 0 = 0 := by
  refine ⟨init_cbs_length pm n d, ?_, ?_, ?_, ?_⟩
  · intro i hi
    rw [init_cbs_getD pm n d i (by omega), if_neg (by omega), mkCb_next]
  · rw [init_cbs_getD pm n d _ (by omega), if_pos rfl]
  · intro i hi
    by_cases h : i = 2 * n - 1
    · subst h
      rw [init_cbs_getD pm n d _ (by omega), if_pos rfl,
        show (2 * n - 1 + 1) % (2 * n) = 0 by
          rw [show 2 * n - 1 + 1 = 2 * n from by omega, Nat.mod_self]]
    · rw [init_cbs_getD pm n d i hi, if_neg h, mkCb_next,
        Nat.mod_eq_of_lt (by omega)]
  · rw [iterate_succ_mod (2 * n) (by omega) (2 * n) (le_refl _), Nat.mod_self]

/-- C6 witness: the theorem instantiated at the concrete page map
`pmFix`, `n = 2` samples, PWM pacing. -/
theorem C6_cb_chain_closure_witness :
    1 ≤ 2 ∧
    ((init_cbs pmFix 2 0).length = 2 * 2 ∧
    (∀ i, i < 2 * 2 - 1 →
      ((init_cbs pmFix 2 0).getD i cbDefault).next =
        virt_to_phys pmFix (cbOffset 2 (i + 1))) ∧
    ((init_cbs pmFix 2 0).getD (2 * 2 - 1) cbDefault).next =
      virt_to_phys pmFix (cbOffset 2 0) ∧
    (∀ i, i < 2 * 2 →
      ((init_cbs pmFix 2 0).getD i cbDefault).next =
        virt_to_phys pmFix (cbOffset 2 ((i + 1) % (2 * 2)))) ∧
    (fun i => (i + 1) % (2 * 2))^[2 * 2] 0 = 0) :=
  ⟨by decide, C6_cb_chain_closure pmFix 2 0 (by decide)⟩

/-- Unpacking a successful channel-table access. -/
theorem getCh?_eq_some (s : PwmState) (c : Int) (ch : PwmChannel)
    (h : getCh? s c = some ch) :
    ∃ hc : 0 ≤ c ∧ c < 15, s.channels ⟨c.toNat, by omega⟩ = ch := by
  by_cases hc : 0 ≤ c ∧ c < 15
  · refine ⟨hc, ?_⟩
    rw [getCh?, dif_pos hc] at h
    exact Option.some.inj h
  · rw [getCh?, dif_neg hc] at h
    cases h

/-- C5: on an initialized channel (as built by `init_channel`, so
`width_max = num_samples - 1` with `num_samples ≥ 1`), any
`add_channel_pulse` whose C-`int` arguments satisfy
`s + w > num_samples - 1` or `s < 0` fails width-range and returns the
state unchanged: no sample word, control block, `gpio_setup` bit or GPIO
register is touched. -/
theorem C5_add_pulse_range_rejection (s : PwmState) (c : Int) (gpio : Nat)
    (ws w : Int) (ch : PwmChannel)
    (hch : getCh? s c = some ch)
    (hinit : ch.virtbase = true)
    (hn : 1 ≤ ch.num_samples)
    (hwm : ch.width_max = ch.num_samples - 1)
    (hbound : ws < 2 ^ 31 ∧ w < 2 ^ 31)
    (hcond : ws + w > (ch.num_samples : Int) - 1 ∨ ws < 0) :
    add_channel_pulse s c gpio ws w = some (s, some PwmError.widthRange) := by
  obtain ⟨hc, hchan⟩ := getCh?_eq_some s c ch hch
  have hcheck : toU32 (ws + w) > ch.width_max ∨ ws < 0 := by
    rcases hcond with h | h
    · by_cases hws : ws < 0
      · exact Or.inr hws
      · left
        have h1 : 0 ≤ ws + w := by omega
        have h2 : ws + w < 2 ^ 32 := by
          have : (2 ^ 31 : Int) + 2 ^ 31 = 2 ^ 32 := by norm_num
          omega
        have h3 : toU32 (ws + w) = (ws + w).toNat := by
          rw [toU32, Int.emod_eq_of_lt h1 h2]
        rw [h3, hwm]
        omega
    · exact Or.inr h
  simp only [add_channel_pulse]
  rw [dif_pos hc]
  simp only [hchan, hinit, Bool.true_eq_false, if_false, if_pos hcheck]

/-- C5 witness: on `pwmTest` (8 samples, `width_max = 7`), the call
`add_channel_pulse(0, 17, 0, 8)` is rejected width-range with the state
unchanged. -/
theorem C5_add_pulse_range_rejection_witness :
    getCh? pwmTest 0 = some chanTest ∧
    chanTest.virtbase = true ∧
    1 ≤ chanTest.num_samples ∧
    chanTest.width_max = chanTest.num_samples - 1 ∧
    ((0 : Int) < 2 ^ 31 ∧ (8 : Int) < 2 ^ 31) ∧
    ((0 : Int) + 8 > (chanTest.num_samples : Int) - 1 ∨ (0 : Int) < 0) ∧
    add_channel_pulse pwmTest 0 17 0 8 = some (pwmTest, some PwmError.widthRange) :=
  ⟨by decide, by decide, by decide, by decide, ⟨by decide, by decide⟩,
   Or.inl (by decide),
   C5_add_pulse_range_rejection pwmTest 0 17 0 8 chanTest (by decide)
     (by decide) (by decide) (by decide) ⟨by decide, by decide⟩
     (Or.inl (by decide))⟩

/-- C10: only `init_channel` validates the channel index, and only
against the maximum 14 (given `setup` ran, a too-large channel fails
channel-range with no table access).  The pulse/query operations index
the 15-entry table unchecked: for `0 ≤ c ≤ 14` the table access
succeeds, and outside that range every one of their table accesses is
out of bounds (`none`), so the precondition is required. -/
theorem C10_channel_bounds (s : PwmState) (c : Int) :
    (¬ (0 ≤ c ∧ c ≤ 14) →
      is_channel_initialized s c = none ∧
      get_channel_subcycle_time_us s c = none ∧
      (∀ gpio ws w, add_channel_pulse s c gpio ws w = none) ∧
      clear_channel s c = none ∧
      (∀ gpio, clear_channel_gpio s c gpio = none)) ∧
    ((0 ≤ c ∧ c ≤ 14) →
      (getCh? s c).isSome ∧
      (is_channel_initialized s c).isSome ∧
      (get_channel_subcycle_time_us s c).isSome) ∧
    (s.is_setup_flag = true → 14 < c →
      ∀ sub pm, init_channel s c sub pm = some (s, some PwmError.channelRange)) := by
  refine ⟨?_, ?_, ?_⟩
  · intro hc
    have hc' : ¬ (0 ≤ c ∧ c < 15) := by omega
    refine ⟨?_, ?_, ?_, ?_, ?_⟩
    · simp [is_channel_initialized, getCh?, hc']
    · simp [get_channel_subcycle_time_us, getCh?, hc']
    · intro gpio ws w
      simp [add_channel_pulse, hc']
    · simp [clear_channel, hc']
    · intro gpio
      simp [clear_channel_gpio, hc']
  · intro hc
    have hc' : 0 ≤ c ∧ c < 15 := by omega
    refine ⟨?_, ?_, ?_⟩ <;>
      simp [getCh?, is_channel_initialized, get_channel_subcycle_time_us, hc']
  · intro hsetup h14 sub pm
    simp [init_channel, hsetup, h14]

/-- C10 witness: channel 20 is an out-of-bounds access for
`clear_channel`; channel 3 is a valid table index; `init_channel` on
channel 15 fails channel-range. -/
theorem C10_channel_bounds_witness :
    ¬ ((0 : Int) ≤ 20 ∧ (20 : Int) ≤ 14) ∧
    clear_channel pwmTest 20 = none ∧
    ((0 : Int) ≤ 3 ∧ (3 : Int) ≤ 14) ∧
    (getCh? pwmTest 3).isSome ∧
    pwmTest.is_setup_flag = true ∧
    (14 : Int) < 15 ∧
    init_channel pwmTest 15 20000 pmFix = some (pwmTest, some PwmError.channelRange) :=
  ⟨by decide,
   ((C10_channel_bounds pwmTest 20).1 (by decide)).2.2.2.1,
   by decide,
   ((C10_channel_bounds pwmTest 3).2.1 (by decide)).1,
   by decide,
   by decide,
   (C10_channel_bounds pwmTest 15).2.2 (by decide) (by decide) 20000 pmFix⟩

/-- The pull value latched for line `g` by `set_pullupdn(g, pud)`:
down = 1, up = 2, anything else = off = 0. -/
theorem set_pullupdn_pull_self (hw : GpioHw) (g : Nat) (pud : Int) :
    (set_pullupdn hw g pud).pull g =
      (if pud = PUD_DOWN then 1 else if pud = PUD_UP then 2 else 0) := by
  have hone : ((1 <<< (g % 32) : Nat)).testBit (g % 32) = true := by
    rw [one_shl_testBit]
    simp
  have ho1 : ((hw.pud &&& compl32 3) ||| 1) &&& 3 = 1 := and3_of_or _ 1 (by omega)
  have ho2 : ((hw.pud &&& compl32 3) ||| 2) &&& 3 = 2 := and3_of_or _ 2 (by omega)
  have ho0 : (hw.pud &&& compl32 3) &&& 3 = 0 := and3_of_clear _
  by_cases h1 : pud = (1 : Int)
  · simp [set_pullupdn, pudclkWrite, h1, hone, ho1, PUD_DOWN, PUD_UP]
  · by_cases h2 : pud = (2 : Int)
    · simp [set_pullupdn, pudclkWrite, h1, h2, hone, ho2, PUD_DOWN, PUD_UP]
    · simp [set_pullupdn, pudclkWrite, h1, h2, hone, ho0, PUD_DOWN, PUD_UP]

/-- `set_pullupdn(g, pud)` leaves every other line's latched pull
unchanged. -/
theorem set_pullupdn_pull_other (hw : GpioHw) (g g' : Nat) (pud : Int)
    (h : g' ≠ g) :
    (set_pullupdn hw g pud).pull g' = hw.pull g' := by
  have hcond : ¬ (g' / 32 = g / 32 ∧ g % 32 ≤ g' % 32 ∧
      Nat.testBit 1 (g' % 32 - g % 32) = true) := by
    rintro ⟨hdiv, hle, hbit⟩
    rw [show (1 : Nat) = 2 ^ 0 by norm_num, Nat.testBit_two_pow] at hbit
    have hz : 0 = g' % 32 - g % 32 := by simpa using hbit
    omega
  by_cases h1 : pud = (1 : Int)
  · simp [set_pullupdn, pudclkWrite, h1, hcond, PUD_DOWN, PUD_UP]
  · by_cases h2 : pud = (2 : Int)
    · simp [set_pullupdn, pudclkWrite, h1, h2, hcond, PUD_DOWN, PUD_UP]
    · simp [set_pullupdn, pudclkWrite, h1, h2, hcond, PUD_DOWN, PUD_UP]

/-- `setup_gpio` changes no latched pull beyond its `set_pullupdn`
call (the FSEL write does not touch the pull state). -/
theorem setup_gpio_pull (hw : GpioHw) (g : Nat) (direction pud : Int)
    (g' : Nat) :
    (setup_gpio hw g direction pud).pull g' = (set_pullupdn hw g pud).pull g' := by
  by_cases h : direction = OUTPUT <;> simp [setup_gpio, h]

/-- C9: in the GPIO facet's `setup`, a caller-supplied pull is forced to
`PUD_OFF` whenever `direction = OUTPUT` (before it is even validated), so
the line is always programmed with pull off; with `direction = INPUT` a
valid pull argument is honoured as given. -/
theorem C9_output_ignores_pull (s : PyGpioState) (channel pud initial g : Int)
    (hg : channel_to_gpio s channel = g) (hge : 0 ≤ g) :
    ((py_setup_channel s channel OUTPUT pud initial).2 = none ∧
     (py_setup_channel s channel OUTPUT pud initial).1.hw.pull g.toNat = 0) ∧
    (∀ pud2 : Int, (pud2 = PUD_OFF ∨ pud2 = PUD_DOWN ∨ pud2 = PUD_UP) →
      (py_setup_channel s channel INPUT pud2 initial).2 = none ∧
      (py_setup_channel s channel INPUT pud2 initial).1.hw.pull g.toNat = pud2.toNat) := by
  have hglt : ¬ g < 0 := by omega
  constructor
  · by_cases hi : (OUTPUT : Int) = OUTPUT ∧ (initial = LOW ∨ initial = HIGH)
    · refine ⟨?_, ?_⟩ <;>
        simp [py_setup_channel, OUTPUT, INPUT, PUD_OFF, PUD_DOWN, PUD_UP,
          LOW, HIGH, hg, hglt, hi, output_gpio, setup_gpio_pull,
          set_pullupdn_pull_self]
    · refine ⟨?_, ?_⟩ <;>
        simp [py_setup_channel, OUTPUT, INPUT, PUD_OFF, PUD_DOWN, PUD_UP,
          LOW, HIGH, hg, hglt, hi, setup_gpio_pull, set_pullupdn_pull_self]
  · intro pud2 hpud2
    rcases hpud2 with h | h | h <;> subst h <;>
      refine ⟨?_, ?_⟩ <;>
        simp [py_setup_channel, OUTPUT, INPUT, PUD_OFF, PUD_DOWN, PUD_UP,
          LOW, HIGH, hg, hglt, setup_gpio_pull, set_pullupdn_pull_self]

/-- C9 witness: on `gpioFacetBcm`, `setup(17, OUTPUT, PUD_UP)` programs
pull off for BCM 17, while `setup(17, INPUT, PUD_UP)` programs pull
up. -/
theorem C9_output_ignores_pull_witness :
    channel_to_gpio gpioFacetBcm 17 = 17 ∧ (0 : Int) ≤ 17 ∧
    ((py_setup_channel gpioFacetBcm 17 OUTPUT PUD_UP (-1)).2 = none ∧
     (py_setup_channel gpioFacetBcm 17 OUTPUT PUD_UP (-1)).1.hw.pull
       (17 : Int).toNat = 0) ∧
    ((py_setup_channel gpioFacetBcm 17 INPUT PUD_UP (-1)).2 = none ∧
     (py_setup_channel gpioFacetBcm 17 INPUT PUD_UP (-1)).1.hw.pull
       (17 : Int).toNat = (PUD_UP : Int).toNat) :=
  ⟨by decide, by decide,
   (C9_output_ignores_pull gpioFacetBcm 17 PUD_UP (-1) 17 (by decide)
     (by decide)).1,
   (C9_output_ignores_pull gpioFacetBcm 17 PUD_UP (-1) 17 (by decide)
     (by decide)).2 PUD_UP (Or.inr (Or.inr rfl))⟩

/-- C7: with the gpio claimed in `gpio_setup`, `clear_channel_gpio`
clears bit `gpio` out of every one of the channel's sample words (leaving
all other bits of every sample untouched), keeps the control-block
program unchanged, and drives the line low; with the bit unclaimed it
fails gpio-not-setup and returns the state unchanged. -/
theorem C7_clear_channel_gpio_spec (s : PwmState) (c : Int) (g : Nat)
    (ch : PwmChannel)
    (hch : getCh? s c = some ch)
    (hinit : ch.virtbase = true)
    (hlen : ch.sample.length = ch.num_samples)
    (hwords : ∀ x ∈ ch.sample, x < 2 ^ 32) :
    (s.gpio_setup &&& (1 <<< g) ≠ 0 →
      ∃ s' smp1, clear_channel_gpio s c g = some (s', none) ∧
        getCh? s' c = some { ch with sample := smp1 } ∧
        smp1.length = ch.num_samples ∧
        (∀ i, i < ch.num_samples → ∀ b,
          (smp1.getD i 0).testBit b =
            ((ch.sample.getD i 0).testBit b && decide (b ≠ g))) ∧
        s'.hw.level g = false) ∧
    (s.gpio_setup &&& (1 <<< g) = 0 →
      clear_channel_gpio s c g = some (s, some PwmError.gpioNotSetup)) := by
  obtain ⟨hc, hchan⟩ := getCh?_eq_some s c ch hch
  constructor
  · intro hset
    obtain ⟨smp1, h1, hlen1, hspec1⟩ :=
      updRange?_spec (fun w => w &&& compl32 (1 <<< g)) 0 ch.num_samples
        ch.sample 0 (le_refl 0) (by omega)
    refine ⟨{ s with
        channels := Function.update s.channels ⟨c.toNat, by omega⟩
          { ch with sample := smp1 }
        hw := pwm_gpio_set s.hw g 0 }, smp1, ?_, ?_, by omega, ?_, ?_⟩
    · simp only [clear_channel_gpio]
      rw [dif_pos hc]
      simp only [hchan]
      rw [if_neg (by simp [hinit]), if_neg hset, h1]
      rfl
    · rw [getCh?, dif_pos hc]
      simp [Function.update_apply]
    · intro i hi b
      rw [hspec1 i, if_pos (by omega)]
      have hmem : ch.sample.getD i 0 ∈ ch.sample := by
        rw [getD_eq_get ch.sample i 0 (by omega)]
        exact List.get_mem _ _ _
      exact and_compl_one_shl_testBit _ g b (hwords _ hmem)
    · simp [pwm_gpio_set]
  · intro hset
    simp only [clear_channel_gpio]
    rw [dif_pos hc]
    simp only [hchan]
    rw [if_neg (by simp [hinit]), if_pos hset]

/-- C7 witness: on `pwmTest` (gpio 17 claimed), `clear_channel_gpio(0,
17)` succeeds and `clear_channel_gpio(0, 18)` fails gpio-not-setup. -/
theorem C7_clear_channel_gpio_spec_witness :
    getCh? pwmTest 0 = some chanTest ∧
    chanTest.virtbase = true ∧
    chanTest.sample.length = chanTest.num_samples ∧
    pwmTest.gpio_setup &&& (1 <<< 17) ≠ 0 ∧
    (∃ s' smp1, clear_channel_gpio pwmTest 0 17 = some (s', none) ∧
      getCh? s' 0 = some { chanTest with sample := smp1 } ∧
      smp1.length = chanTest.num_samples ∧
      (∀ i, i < chanTest.num_samples → ∀ b,
        (smp1.getD i 0).testBit b =
          ((chanTest.sample.getD i 0).testBit b && decide (b ≠ 17))) ∧
      s'.hw.level 17 = false) ∧
    pwmTest.gpio_setup &&& (1 <<< 18) = 0 ∧
    clear_channel_gpio pwmTest 0 18 = some (pwmTest, some PwmError.gpioNotSetup) :=
  ⟨by decide, by decide, by decide, by decide,
   (C7_clear_channel_gpio_spec pwmTest 0 17 chanTest (by decide) (by decide)
     (by decide) (by decide)).1 (by decide),
   by decide,
   (C7_clear_channel_gpio_spec pwmTest 0 18 chanTest (by decide) (by decide)
     (by decide) (by decide)).2 (by decide)⟩

/-- `toU32` of a small non-negative `int` is its value. -/
theorem toU32_eq_toNat (x : Int) (h0 : 0 ≤ x) (hx : x < 4294967296) :
    toU32 x = x.toNat := by
  have h2 : (2 : Int) ^ 32 = 4294967296 := by norm_num
  rw [toU32, h2, Int.emod_eq_of_lt h0 (by omega)]

/-- C2 (amended): for a completed `add_channel_pulse(c, g, s, w)` with
`0 ≤ s`, `0 ≤ w`, `s + w ≤ num_samples - 1`: bit `g` is set in
`sample[s]` and `sample[s+w]`, bit `g` is cleared only in
`sample[s+1 .. s+w-2]` (not `s+w-1` as the claim states), all other
sample words and bits are untouched; the CLR0 destination is written at
CB index `2*(s + max(w-2,0))` (not `2*(s+w)`), the SET0 destination at
CB index `2s` survives only when `w ≥ 3` (for `w ≤ 2` the CLR0 write
lands on the same CB and overwrites it), and every other CB is
unchanged. -/
theorem C2_add_pulse_amended (s : PwmState) (c : Int) (g : Nat) (ws w : Int)
    (ch : PwmChannel)
    (hch : getCh? s c = some ch)
    (hinit : ch.virtbase = true)
    (hlen : ch.sample.length = ch.num_samples)
    (hcbs : ch.cbs.length = 2 * ch.num_samples)
    (hwm : ch.width_max = ch.num_samples - 1)
    (hn32 : ch.num_samples ≤ 2 ^ 32)
    (hwords : ∀ x ∈ ch.sample, x < 2 ^ 32)
    (hws : 0 ≤ ws) (hw0 : 0 ≤ w)
    (hrange : ws + w ≤ (ch.num_samples : Int) - 1) :
    ∃ s' smp cbs,
      add_channel_pulse s c g ws w = some (s', none) ∧
      getCh? s' c = some { ch with sample := smp, cbs := cbs } ∧
      smp.length = ch.num_samples ∧
      cbs.length = 2 * ch.num_samples ∧
      (∀ b, (smp.getD ws.toNat 0).testBit b =
        ((ch.sample.getD ws.toNat 0).testBit b || decide (b = g))) ∧
      (∀ b, (smp.getD (ws + w).toNat 0).testBit b =
        ((ch.sample.getD (ws + w).toNat 0).testBit b || decide (b = g))) ∧
      (∀ i, ws.toNat + 1 ≤ i → i ≤ ws.toNat + (w - 2).toNat → ∀ b,
        (smp.getD i 0).testBit b =
          ((ch.sample.getD i 0).testBit b && decide (b ≠ g))) ∧
      (∀ i, i ≠ ws.toNat → i ≠ (ws + w).toNat →
        ¬ (ws.toNat + 1 ≤ i ∧ i ≤ ws.toNat + (w - 2).toNat) →
        smp.getD i 0 = ch.sample.getD i 0) ∧
      (cbs.getD (2 * (ws.toNat + (w - 2).toNat)) cbDefault).dst = GPCLR0_BUS ∧
      (3 ≤ w → (cbs.getD (2 * ws.toNat) cbDefault).dst = GPSET0_BUS) ∧
      (∀ j, j ≠ 2 * ws.toNat → j ≠ 2 * (ws.toNat + (w - 2).toNat) →
        cbs.getD j cbDefault = ch.cbs.getD j cbDefault) := by
  obtain ⟨hc, hchan⟩ := getCh?_eq_some s c ch hch
  have hn32' : ch.num_samples ≤ 4294967296 := by simpa using hn32
  have hn1 : 1 ≤ ch.num_samples := by omega
  have hugt : ¬ (toU32 (ws + w) > ch.width_max ∨ ws < 0) := by
    rintro (h | h)
    · rw [toU32_eq_toNat (ws + w) (by omega) (by omega), hwm] at h
      omega
    · omega
  obtain ⟨smp1, e1, len1, spec1⟩ :=
    updIdx?_spec ch.sample ws (fun x => x ||| (1 <<< g)) 0 hws (by omega)
  obtain ⟨cbs1, ec1, lenc1, specc1⟩ :=
    updIdx?_spec ch.cbs (2 * ws) (fun cb => { cb with dst := GPSET0_BUS })
      cbDefault (by omega) (by omega)
  obtain ⟨smp2, e2, len2, spec2⟩ :=
    updRange?_spec (fun x => x &&& compl32 (1 <<< g)) 0 (w - 2).toNat smp1
      (ws + 1) (by omega) (by omega)
  obtain ⟨smp3, e3, len3, spec3⟩ :=
    updIdx?_spec smp2 (ws + w) (fun x => x ||| (1 <<< g)) 0 (by omega)
      (by omega)
  obtain ⟨cbs2, ec2, lenc2, specc2⟩ :=
    updIdx?_spec cbs1 (2 * ws + 2 * ((w - 2).toNat : Int))
      (fun cb => { cb with dst := GPCLR0_BUS }) cbDefault (by omega) (by omega)
  have horig : ∀ i : Nat, i < ch.num_samples → ch.sample.getD i 0 < 2 ^ 32 := by
    intro i hi
    have hmem : ch.sample.getD i 0 ∈ ch.sample := by
      rw [getD_eq_get ch.sample i 0 (by omega)]
      exact List.get_mem _ _ _
    exact hwords _ hmem
  refine ⟨{ (if s.gpio_setup &&& (1 <<< g) = 0 then init_gpio s g else s) with
      channels := Function.update s.channels ⟨c.toNat, by omega⟩
        { ch with sample := smp3, cbs := cbs2 } }, smp3, cbs2,
    ?_, ?_, by omega, by omega, ?_, ?_, ?_, ?_, ?_, ?_, ?_⟩
  · simp only [add_channel_pulse]
    rw [dif_pos hc]
    simp only [hchan]
    rw [if_neg (by simp [hinit]), if_neg hugt]
    simp only [e1, ec1, e2, e3, ec2, bind, Option.bind]
    have hchans : (if s.gpio_setup &&& (1 <<< g) = 0 then init_gpio s g
        else s).channels = s.channels := by
      split <;> rfl
    rw [hchans]
  · rw [getCh?, dif_pos hc]
    simp [Function.update_apply]
  · -- rising edge sample: bit g set at sample[s]
    intro b
    have h2 : smp2.getD ws.toNat 0 = smp1.getD ws.toNat 0 := by
      rw [spec2 ws.toNat, if_neg (by omega)]
    have h1 : smp1.getD ws.toNat 0 = ch.sample.getD ws.toNat 0 ||| 1 <<< g := by
      rw [spec1 ws.toNat, if_pos rfl]
    by_cases hE : ws.toNat = (ws + w).toNat
    · rw [spec3 ws.toNat, if_pos hE, h2, h1, or_one_shl_testBit,
        or_one_shl_testBit, Bool.or_assoc, Bool.or_self]
    · rw [spec3 ws.toNat, if_neg hE, h2, h1, or_one_shl_testBit]
  · -- falling edge sample: bit g set at sample[s+w]
    intro b
    have h2 : smp2.getD (ws + w).toNat 0 = smp1.getD (ws + w).toNat 0 := by
      rw [spec2 (ws + w).toNat, if_neg (by omega)]
    rw [spec3 (ws + w).toNat, if_pos rfl, h2]
    by_cases hE : (ws + w).toNat = ws.toNat
    · rw [spec1 (ws + w).toNat, if_pos hE, or_one_shl_testBit,
        or_one_shl_testBit, Bool.or_assoc, Bool.or_self]
    · rw [spec1 (ws + w).toNat, if_neg hE, or_one_shl_testBit]
  · -- pulse body: bit g cleared on s+1 .. s+w-2
    intro i hi1 hi2 b
    rw [spec3 i, if_neg (by omega), spec2 i, if_pos (by omega), spec1 i,
      if_neg (by omega)]
    exact and_compl_one_shl_testBit _ g b (horig i (by omega))
  · -- all other samples unchanged
    intro i h1 h2 h3
    rw [spec3 i, if_neg (by omega), spec2 i, if_neg (by omega), spec1 i,
      if_neg (by omega)]
  · -- CLR0 written at CB 2*(s + max(w-2,0))
    rw [specc2 _, if_pos (by omega)]
  · -- SET0 at CB 2s survives when w ≥ 3
    intro h3
    rw [specc2 _, if_neg (by omega), specc1 _, if_pos (by omega)]
  · -- all other CBs unchanged
    intro j hj1 hj2
    rw [specc2 j, if_neg (by omega), specc1 j, if_neg (by omega)]

/-- C2 (amended) witness: the amended description instantiated on
`pwmTest` with `add_channel_pulse(0, 17, 1, 4)`. -/
theorem C2_add_pulse_amended_witness :
    getCh? pwmTest 0 = some chanTest ∧
    (0 : Int) ≤ 1 ∧ (0 : Int) ≤ 4 ∧
    (1 : Int) + 4 ≤ (chanTest.num_samples : Int) - 1 ∧
    (∃ s' smp cbs,
      add_channel_pulse pwmTest 0 17 1 4 = some (s', none) ∧
      getCh? s' 0 = some { chanTest with sample := smp, cbs := cbs } ∧
      smp.length = chanTest.num_samples ∧
      cbs.length = 2 * chanTest.num_samples ∧
      (∀ b, (smp.getD (1 : Int).toNat 0).testBit b =
        ((chanTest.sample.getD (1 : Int).toNat 0).testBit b || decide (b = 17))) ∧
      (∀ b, (smp.getD ((1 : Int) + 4).toNat 0).testBit b =
        ((chanTest.sample.getD ((1 : Int) + 4).toNat 0).testBit b ||
          decide (b = 17))) ∧
      (∀ i, (1 : Int).toNat + 1 ≤ i → i ≤ (1 : Int).toNat + ((4 : Int) - 2).toNat →
        ∀ b, (smp.getD i 0).testBit b =
          ((chanTest.sample.getD i 0).testBit b && decide (b ≠ 17))) ∧
      (∀ i, i ≠ (1 : Int).toNat → i ≠ ((1 : Int) + 4).toNat →
        ¬ ((1 : Int).toNat + 1 ≤ i ∧ i ≤ (1 : Int).toNat + ((4 : Int) - 2).toNat) →
        smp.getD i 0 = chanTest.sample.getD i 0) ∧
      (cbs.getD (2 * ((1 : Int).toNat + ((4 : Int) - 2).toNat)) cbDefault).dst =
        GPCLR0_BUS ∧
      ((3 : Int) ≤ 4 → (cbs.getD (2 * (1 : Int).toNat) cbDefault).dst =
        GPSET0_BUS) ∧
      (∀ j, j ≠ 2 * (1 : Int).toNat →
        j ≠ 2 * ((1 : Int).toNat + ((4 : Int) - 2).toNat) →
        cbs.getD j cbDefault = chanTest.cbs.getD j cbDefault)) :=
  ⟨by decide, by decide, by decide, by decide,
   C2_add_pulse_amended pwmTest 0 17 1 4 chanTest (by decide) (by decide)
     (by decide) (by decide) (by decide) (by decide) (by decide) (by decide)
     (by decide) (by decide)⟩

/-! ## Cleanup fold lemmas (C8) -/

theorem set_pullupdn_fsel (hw : GpioHw) (i : Nat) (pud : Int) :
    (set_pullupdn hw i pud).fsel = hw.fsel := by
  simp only [set_pullupdn, pudclkWrite]
  split
  · rfl
  · split <;> rfl

theorem setup_gpio_pull_off_self (hw : GpioHw) (i : Nat) :
    (setup_gpio hw i INPUT PUD_OFF).pull i = 0 := by
  rw [setup_gpio_pull, set_pullupdn_pull_self]
  simp [PUD_OFF, PUD_DOWN, PUD_UP]

theorem setup_gpio_pull_other (hw : GpioHw) (i g : Nat) (h : g ≠ i)
    (direction pud : Int) :
    (setup_gpio hw i direction pud).pull g = hw.pull g := by
  rw [setup_gpio_pull]
  exact set_pullupdn_pull_other hw i g pud h

theorem gpio_function_setup_input_self (hw : GpioHw) (i : Nat) (hi : i < 54) :
    gpio_function (setup_gpio hw i INPUT PUD_OFF) i = 0 := by
  rw [setup_gpio, if_neg (by simp [INPUT, OUTPUT])]
  show fieldGet (Function.update (set_pullupdn hw i PUD_OFF).fsel (i / 10) _
    (i / 10)) ((i % 10) * 3) = 0
  rw [Function.update_same]
  exact fieldGet_clear_self _ _ (by omega)

theorem gpio_function_setup_other (hw : GpioHw) (i g : Nat) (hi : i < 54)
    (hg : g < 54) (hne : i ≠ g) (direction pud : Int) :
    gpio_function (setup_gpio hw i direction pud) g = gpio_function hw g := by
  have hdisj : (g % 10) * 3 + 3 ≤ (i % 10) * 3 ∨
      (i % 10) * 3 + 3 ≤ (g % 10) * 3 ∨ i / 10 ≠ g / 10 := by omega
  rw [setup_gpio]
  by_cases hd : direction = OUTPUT
  · rw [if_pos hd]
    show fieldGet (Function.update (set_pullupdn hw i pud).fsel (i / 10) _
      (g / 10)) ((g % 10) * 3) = gpio_function hw g
    by_cases hw10 : g / 10 = i / 10
    · rw [hw10, Function.update_same,
        fieldGet_or_one_other _ _ _ (by omega),
        fieldGet_clear_other _ _ _ (by omega) (by omega),
        set_pullupdn_fsel, gpio_function, hw10]
    · rw [Function.update_noteq hw10, set_pullupdn_fsel, gpio_function]
  · rw [if_neg hd]
    show fieldGet (Function.update (set_pullupdn hw i pud).fsel (i / 10) _
      (g / 10)) ((g % 10) * 3) = gpio_function hw g
    by_cases hw10 : g / 10 = i / 10
    · rw [hw10, Function.update_same,
        fieldGet_clear_other _ _ _ (by omega) (by omega),
        set_pullupdn_fsel, gpio_function, hw10]
    · rw [Function.update_noteq hw10, set_pullupdn_fsel, gpio_function]

theorem cleanupStep_dir_length (st : PyGpioState) (i : Nat) :
    (cleanupStep st i).gpio_direction.length = st.gpio_direction.length := by
  rw [cleanupStep]
  split <;> simp

theorem cleanupStep_eq_of_unset (st : PyGpioState) (i : Nat)
    (h : st.gpio_direction.getD i 0 = -1) : cleanupStep st i = st := by
  rw [cleanupStep, if_neg (by rw [h]; simp)]

theorem cleanupStep_dir_self (st : PyGpioState) (i : Nat)
    (hi : i < st.gpio_direction.length) :
    (cleanupStep st i).gpio_direction.getD i 0 = -1 := by
  by_cases h : st.gpio_direction.getD i 0 ≠ -1
  · rw [cleanupStep, if_pos h]
    exact getD_set_self _ _ _ _ hi
  · rw [cleanupStep, if_neg h]
    simpa using h

theorem cleanupStep_dir_other (st : PyGpioState) (i g : Nat) (h : g ≠ i) :
    (cleanupStep st i).gpio_direction.getD g 0 = st.gpio_direction.getD g 0 := by
  rw [cleanupStep]
  split
  · exact getD_set_ne _ _ _ _ _ (fun hh => h hh.symm)
  · rfl

theorem cleanupStep_hw (st : PyGpioState) (i : Nat) :
    (cleanupStep st i).hw =
      (if st.gpio_direction.getD i 0 ≠ -1 then setup_gpio st.hw i INPUT PUD_OFF
       else st.hw) := by
  rw [cleanupStep]
  split <;> rfl

/-- Invariant of the `py_cleanup` loop over any duplicate-free worklist
`l` of lines below 54. -/
theorem cleanup_fold_spec :
    ∀ (l : List Nat) (st : PyGpioState), l.Nodup → (∀ i ∈ l, i < 54) →
      st.gpio_direction.length = 54 → ∀ g : Nat, g < 54 →
      (l.foldl cleanupStep st).gpio_direction.length = 54 ∧
      (l.foldl cleanupStep st).gpio_direction.getD g 0 =
        (if g ∈ l then -1 else st.gpio_direction.getD g 0) ∧
      gpio_function (l.foldl cleanupStep st).hw g =
        (if g ∈ l ∧ st.gpio_direction.getD g 0 ≠ -1 then 0
         else gpio_function st.hw g) ∧
      (l.foldl cleanupStep st).hw.pull g =
        (if g ∈ l ∧ st.gpio_direction.getD g 0 ≠ -1 then 0
         else st.hw.pull g)
  | [], st, _, _, hlen, g, hg => by
      refine ⟨hlen, ?_, ?_, ?_⟩ <;> simp
  | i :: t, st, hnd, hmem, hlen, g, hg => by
      have hi54 : i < 54 := hmem i (by simp)
      have hnd' : t.Nodup := (List.nodup_cons.mp hnd).2
      have hint : i ∉ t := (List.nodup_cons.mp hnd).1
      have hmem' : ∀ j ∈ t, j < 54 := fun j hj => hmem j (by simp [hj])
      have hlen1 : (cleanupStep st i).gpio_direction.length = 54 := by
        rw [cleanupStep_dir_length]
        exact hlen
      obtain ⟨L, D, F, P⟩ :=
        cleanup_fold_spec t (cleanupStep st i) hnd' hmem' hlen1 g hg
      rw [List.foldl_cons]
      by_cases hgi : g = i
      · subst hgi
        refine ⟨L, ?_, ?_, ?_⟩
        · rw [if_pos (show g ∈ g :: t from by simp), D]
          by_cases hgt : g ∈ t
          · rw [if_pos hgt]
          · rw [if_neg hgt]
            exact cleanupStep_dir_self st g (by omega)
        · by_cases hdir : st.gpio_direction.getD g 0 ≠ -1
          · rw [if_pos ⟨show g ∈ g :: t from by simp, hdir⟩, F,
              if_neg (fun hh => hint hh.1), cleanupStep_hw, if_pos hdir]
            exact gpio_function_setup_input_self _ _ hg
          · rw [if_neg (fun hh => hdir hh.2), F,
              if_neg (fun hh => hint hh.1), cleanupStep_hw, if_neg hdir]
        · by_cases hdir : st.gpio_direction.getD g 0 ≠ -1
          · rw [if_pos ⟨show g ∈ g :: t from by simp, hdir⟩, P,
              if_neg (fun hh => hint hh.1), cleanupStep_hw, if_pos hdir]
            exact setup_gpio_pull_off_self _ _
          · rw [if_neg (fun hh => hdir hh.2), P,
              if_neg (fun hh => hint hh.1), cleanupStep_hw, if_neg hdir]
      · have hmemiff : (g ∈ i :: t) ↔ (g ∈ t) := by simp [hgi]
        have hdir1 : (cleanupStep st i).gpio_direction.getD g 0 =
            st.gpio_direction.getD g 0 := cleanupStep_dir_other st i g hgi
        have hfun1 : gpio_function (cleanupStep st i).hw g =
            gpio_function st.hw g := by
          rw [cleanupStep_hw]
          split
          · exact gpio_function_setup_other st.hw i g hi54 hg
              (fun hh => hgi hh.symm) _ _
          · rfl
        have hpull1 : (cleanupStep st i).hw.pull g = st.hw.pull g := by
          rw [cleanupStep_hw]
          split
          · exact setup_gpio_pull_other st.hw i g hgi _ _
          · rfl
        refine ⟨L, ?_, ?_, ?_⟩
        · rw [D, hdir1]
          by_cases hgt : g ∈ t
          · rw [if_pos hgt, if_pos (hmemiff.mpr hgt)]
          · rw [if_neg hgt, if_neg (fun hh => hgt (hmemiff.mp hh))]
        · rw [F, hdir1, hfun1]
          by_cases hgt : g ∈ t ∧ st.gpio_direction.getD g 0 ≠ -1
          · rw [if_pos hgt, if_pos ⟨hmemiff.mpr hgt.1, hgt.2⟩]
          · rw [if_neg hgt, if_neg (fun hh => hgt ⟨hmemiff.mp hh.1, hh.2⟩)]
        · rw [P, hdir1, hpull1]
          by_cases hgt : g ∈ t ∧ st.gpio_direction.getD g 0 ≠ -1
          · rw [if_pos hgt, if_pos ⟨hmemiff.mpr hgt.1, hgt.2⟩]
          · rw [if_neg hgt, if_neg (fun hh => hgt ⟨hmemiff.mp hh.1, hh.2⟩)]

/-- A cleanup pass over lines whose directions are already all −1 is the
identity. -/
theorem cleanup_fold_id (l : List Nat) (st : PyGpioState)
    (h : ∀ i ∈ l, st.gpio_direction.getD i 0 = -1) :
    l.foldl cleanupStep st = st := by
  induction l with
  | nil => rfl
  | cons i t ih =>
    rw [List.foldl_cons, cleanupStep_eq_of_unset st i (h i (by simp))]
    exact ih (fun j hj => h j (by simp [hj]))

/-- C8: after the GPIO facet's cleanup, every line whose direction the
pin-mode table recorded as input or output reads back function 0 (input),
has its latched pull off, and its table entry reset to −1; and a second
cleanup call is the identity. -/
theorem C8_cleanup_complete_idempotent (s : PyGpioState)
    (hlen : s.gpio_direction.length = 54) :
    (∀ g : Nat, g < 54 →
      (s.gpio_direction.getD g 0 = INPUT ∨ s.gpio_direction.getD g 0 = OUTPUT) →
      gpio_function (py_cleanup s).hw g = 0 ∧
      (py_cleanup s).hw.pull g = 0 ∧
      (py_cleanup s).gpio_direction.getD g 0 = -1) ∧
    py_cleanup (py_cleanup s) = py_cleanup s := by
  constructor
  · intro g hg hdir
    obtain ⟨L, D, F, P⟩ := cleanup_fold_spec (List.range 54) s
      (List.nodup_range 54) (by intro i hi; simpa using hi) hlen g hg
    have hgmem : g ∈ List.range 54 := by simpa using hg
    have hdir' : s.gpio_direction.getD g 0 ≠ -1 := by
      rcases hdir with h | h <;> rw [h] <;> simp [INPUT, OUTPUT]
    exact ⟨by rw [py_cleanup, F, if_pos ⟨hgmem, hdir'⟩],
      by rw [py_cleanup, P, if_pos ⟨hgmem, hdir'⟩],
      by rw [py_cleanup, D, if_pos hgmem]⟩
  · refine cleanup_fold_id (List.range 54) (py_cleanup s) ?_
    intro i hi
    have hi54 : i < 54 := by simpa using hi
    obtain ⟨L, D, F, P⟩ := cleanup_fold_spec (List.range 54) s
      (List.nodup_range 54) (by intro j hj; simpa using hj) hlen i hi54
    rw [py_cleanup, D, if_pos (by simpa using hi54)]

/-- C8 witness: a facet state with BCM 17 configured as input; cleanup
resets it and is idempotent. -/
theorem C8_cleanup_complete_idempotent_witness :
    gpioConfigured.gpio_direction.length = 54 ∧
    ((∀ g : Nat, g < 54 →
      (gpioConfigured.gpio_direction.getD g 0 = INPUT ∨
       gpioConfigured.gpio_direction.getD g 0 = OUTPUT) →
      gpio_function (py_cleanup gpioConfigured).hw g = 0 ∧
      (py_cleanup gpioConfigured).hw.pull g = 0 ∧
      (py_cleanup gpioConfigured).gpio_direction.getD g 0 = -1) ∧
    py_cleanup (py_cleanup gpioConfigured) = py_cleanup gpioConfigured) :=
  ⟨by decide, C8_cleanup_complete_idempotent gpioConfigured (by decide)⟩

end RPIO
